import Mathlib

/-!
# go-ipfs command layer: `get` and `bitswap`

A shallow embedding of `core/commands/get.go` and `core/commands/bitswap.go`.

* Go `error` values are modelled by `Error` (their message); a nil error is `none`.
* `req.Option(name)` yields an `OptionValue`; its accessors `Bool()`, `Int()`, `String()`
  each return the Go triple `(value, found, err)`.  The command library is external, so
  the triples are arbitrary data carried by the request.
* Calls into collaborators (bitswap engine, reprovider, file system) are recorded, in
  program order, in a trace that is returned with the result.
-/

set_option autoImplicit false

namespace GoIpfs

/-! ## Errors -/

/-- Go `error` value, identified by its message. -/
structure Error where
  msg : String
deriving DecidableEq, Repr

/-- The `cmds.ErrorType` passed as second argument of `SetError`. -/
inductive ErrorType where
  | ErrNormal
  | ErrClient
deriving DecidableEq, Repr

/-! ## Requests -/

/-- Result triple `(value, found, err)` of `OptionValue.Bool()`. -/
abbrev BoolResult := Bool × Bool × Option Error

/-- Result triple `(value, found, err)` of `OptionValue.Int()`. -/
abbrev IntResult := Int × Bool × Option Error

/-- Result triple `(value, found, err)` of `OptionValue.String()`. -/
abbrev StringResult := String × Bool × Option Error

/-- What `req.Option(name)` returns: an object with the three typed accessors. -/
structure OptionValue where
  Bool : BoolResult
  Int : IntResult
  String : StringResult

/-- Content identifier `*cid.Cid`, identified by its canonical string form. -/
structure Cid where
  key : String
deriving DecidableEq, Repr

namespace peer

/-- Peer identity `peer.ID` (a Go string type, compared with `==`). -/
structure ID where
  id : String
deriving DecidableEq, Repr

end peer

/-- The `context.Context` of a request, identified by a number. -/
structure Context where
  id : Nat
deriving DecidableEq, Repr

/-- Snapshot `decision.Receipt` with the fields the ledger marshaler prints
(bitswap.go:252-253); the floating point `Value` is not represented. -/
structure Receipt where
  Peer : String
  Exchanged : Nat
  Sent : Nat
  Recv : Nat
deriving DecidableEq, Repr

/-- Snapshot `bitswap.Stat` with the fields the stat encoder prints (bitswap.go:175-189). -/
structure Stat where
  ProvideBufLen : Int
  BlocksReceived : Nat
  BlocksSent : Nat
  DataReceived : Nat
  DataSent : Nat
  DupBlksReceived : Nat
  DupDataReceived : Nat
  Wantlist : List Cid
  Peers : List String
deriving DecidableEq, Repr

/-- The bitswap engine as seen by the commands: what each read operation returns. -/
structure Bitswap where
  GetWantlist : List Cid
  WantlistForPeer : peer.ID → List Cid
  Stat : Except Error Stat
  LedgerForPeer : peer.ID → Receipt

/-- Dynamic value of `nd.Exchange`: the bitswap engine, or some other implementation
(named by its Go type) on which the assertion `nd.Exchange.(*bitswap.Bitswap)` fails. -/
inductive Exchange where
  | bitswap (bs : Bitswap)
  | other (goType : String)

/-- The reprovider: `Trigger(ctx)` returns an error or nil. -/
structure Reprovider where
  Trigger : Context → Option Error

/-- The fields and methods of `*core.IpfsNode` the commands use. -/
structure IpfsNode where
  OnlineMode : Bool
  Exchange : Exchange
  Identity : peer.ID
  Reprovider : Reprovider

/-- A command request: `GetNode` is the result of `req.InvocContext().GetNode()`. -/
structure Request where
  GetNode : Except Error IpfsNode
  Arguments : List String
  Context : Context
  Option : String → OptionValue

/-- Declarations used by the commands but defined outside these two files. -/
structure Env where
  /-- Package variable `errNotOnline`. -/
  errNotOnline : Error
  /-- Value of `e.TypeErr(bs, nd.Exchange)` for an exchange of the given Go type. -/
  TypeErr : String → Error
  /-- Library function `cid.Decode`. -/
  cidDecode : String → Except Error Cid
  /-- Library function `peer.IDB58Decode`. -/
  IDB58Decode : String → Except Error peer.ID

/-- Value handed to `SetOutput` (or `Emit`). -/
inductive Output where
  | nil
  | KeyList (Keys : List Cid)
  | Receipt (r : Receipt)
  | Stat (st : Stat)
deriving DecidableEq, Repr

/-- Calls made by a command, recorded in program order. -/
inductive Call where
  | cidDecode (arg : String)
  | IDB58Decode (s : String)
  | CancelWants (ks : List Cid) (ses : Nat)
  | GetWantlist
  | WantlistForPeer (p : peer.ID)
  | Stat
  | LedgerForPeer (p : peer.ID)
  | Trigger (ctx : Context)
deriving DecidableEq, Repr

/-- What a `Run` function leaves behind: the error given to `SetError` (with its kind),
the value given to `SetOutput`/`Emit` (`none` when neither was called), and the calls made. -/
structure Response where
  Error : Option (Error × ErrorType)
  Output : Option Output
  trace : List Call
deriving DecidableEq, Repr

/-! ## `get.go` -/

namespace gzip

/-- Constant `gzip.NoCompression`. -/
def NoCompression : Int := 0

/-- Constant `gzip.DefaultCompression`. -/
def DefaultCompression : Int := -1

end gzip

/-- get.go:24. -/
def ErrInvalidCompressionLevel : Error :=
  ⟨"Compression level must be between 1 and 9"⟩

/-- get.go:249-261.  Returns the Go pair `(level, err)`. -/
def getCompressOptions (req : Request) : Int × Option Error :=
  let cmprs := (req.Option "compress").Bool.1
  let cmplvl := (req.Option "compression-level").Int.1
  let cmplvlFound := (req.Option "compression-level").Int.2.1
  if !cmprs then
    (gzip.NoCompression, none)
  else if cmprs && !cmplvlFound then
    (gzip.DefaultCompression, none)
  else if cmprs && cmplvlFound && (decide (cmplvl < 1) || decide (cmplvl > 9)) then
    (gzip.NoCompression, some ErrInvalidCompressionLevel)
  else
    (cmplvl, none)

/-- get.go:51-54, the `PreRun` hook of `GetCmd`. -/
def GetCmd.PreRun (req : Request) : Option Error :=
  (getCompressOptions req).2

namespace strings

/-- Go `strings.HasSuffix`: `suffix` is a trailing segment of `s`.  The suffixes tested in
`get.go` are ASCII, so testing characters agrees with testing bytes. -/
def HasSuffix (s suffix : String) : Bool :=
  suffix.data.isSuffixOf s.data

end strings

/-- get.go:191-198 (the two writers are the targets of the recorded output events). -/
structure getWriter where
  Archive : Bool
  Compression : Int
  Size : Int

/-- File-system and terminal effects of `getWriter.Write`, in program order. -/
inductive FsEvent where
  | Create (name : String)
  | Print (text : String)
  | Copy (name : String)
  | Extract (path : String)
deriving DecidableEq, Repr

/-- get.go:208-220: the file name after the two adjustments, as passed to `os.Create`. -/
def getWriter.archiveName (gw : getWriter) (fpath : String) : String :=
  let fpath :=
    if gw.Archive then
      if !strings.HasSuffix fpath ".tar" && !strings.HasSuffix fpath ".tar.gz" then
        fpath ++ ".tar"
      else fpath
    else fpath
  let fpath :=
    if gw.Compression ≠ gzip.NoCompression then
      if !strings.HasSuffix fpath ".gz" then fpath ++ ".gz" else fpath
    else fpath
  fpath

/-- get.go:207-236.  `osCreate` is the error result of `os.Create` for a name and
`ioCopy` the error result of `io.Copy`; the progress bar is not represented. -/
def getWriter.writeArchive (gw : getWriter) (osCreate : String → Option Error)
    (ioCopy : Option Error) (fpath : String) : List FsEvent × Option Error :=
  let fpath := gw.archiveName fpath
  match osCreate fpath with
  | some err => ([FsEvent.Create fpath], some err)
  | none =>
    ([FsEvent.Create fpath, FsEvent.Print ("Saving archive to " ++ fpath ++ "\n"),
      FsEvent.Copy fpath], ioCopy)

/-- get.go:238-247.  `extract` is the error result of `extractor.Extract`. -/
def getWriter.writeExtracted (_gw : getWriter) (extract : Option Error)
    (fpath : String) : List FsEvent × Option Error :=
  ([FsEvent.Print ("Saving file(s) to " ++ fpath ++ "\n"), FsEvent.Extract fpath], extract)

/-- get.go:200-205. -/
def getWriter.Write (gw : getWriter) (osCreate : String → Option Error)
    (ioCopy extract : Option Error) (fpath : String) : List FsEvent × Option Error :=
  if gw.Archive || decide (gw.Compression ≠ gzip.NoCompression) then
    gw.writeArchive osCreate ioCopy fpath
  else
    gw.writeExtracted extract fpath

/-! ## `bitswap.go` -/

/-- bitswap.go:62-71, the decoding loop: remaining arguments, `ks` so far, calls so far. -/
def unwantCmd.decodeKeys (env : Env) :
    List String → List Cid → List Call → Except Error (List Cid) × List Call
  | [], ks, tr => (.ok ks, tr)
  | arg :: rest, ks, tr =>
    match env.cidDecode arg with
    | .error err => (.error err, tr ++ [Call.cidDecode arg])
    | .ok c => unwantCmd.decodeKeys env rest (ks ++ [c]) (tr ++ [Call.cidDecode arg])

/-- bitswap.go:44-78. -/
def unwantCmd.Run (env : Env) (req : Request) : Response :=
  match req.GetNode with
  | .error err => ⟨some (err, ErrorType.ErrNormal), none, []⟩
  | .ok nd =>
    if !nd.OnlineMode then
      ⟨some (env.errNotOnline, ErrorType.ErrClient), none, []⟩
    else
      match nd.Exchange with
      | .other t => ⟨some (env.TypeErr t, ErrorType.ErrNormal), none, []⟩
      | .bitswap _ =>
        match unwantCmd.decodeKeys env req.Arguments [] [] with
        | (.error err, tr) => ⟨some (err, ErrorType.ErrNormal), none, tr⟩
        | (.ok ks, tr) => ⟨none, none, tr ++ [Call.CancelWants ks 0]⟩

/-- bitswap.go:91-129. -/
def showWantlistCmd.Run (env : Env) (req : Request) : Response :=
  match req.GetNode with
  | .error err => ⟨some (err, ErrorType.ErrNormal), none, []⟩
  | .ok nd =>
    if !nd.OnlineMode then
      ⟨some (env.errNotOnline, ErrorType.ErrClient), none, []⟩
    else
      match nd.Exchange with
      | .other t => ⟨some (env.TypeErr t, ErrorType.ErrNormal), none, []⟩
      | .bitswap bs =>
        match (req.Option "peer").String with
        | (_, _, some err) => ⟨some (err, ErrorType.ErrNormal), none, []⟩
        | (pstr, found, none) =>
          if found then
            match env.IDB58Decode pstr with
            | .error err => ⟨some (err, ErrorType.ErrNormal), none, [Call.IDB58Decode pstr]⟩
            | .ok pid =>
              if pid = nd.Identity then
                ⟨none, some (Output.KeyList bs.GetWantlist),
                  [Call.IDB58Decode pstr, Call.GetWantlist]⟩
              else
                ⟨none, some (Output.KeyList (bs.WantlistForPeer pid)),
                  [Call.IDB58Decode pstr, Call.WantlistForPeer pid]⟩
          else
            ⟨none, some (Output.KeyList bs.GetWantlist), [Call.GetWantlist]⟩

/-- bitswap.go:141-166 (`re` is the response of the command). -/
def bitswapStatCmd.Run (env : Env) (req : Request) : Response :=
  match req.GetNode with
  | .error err => ⟨some (err, ErrorType.ErrNormal), none, []⟩
  | .ok nd =>
    if !nd.OnlineMode then
      ⟨some (env.errNotOnline, ErrorType.ErrClient), none, []⟩
    else
      match nd.Exchange with
      | .other t => ⟨some (env.TypeErr t, ErrorType.ErrNormal), none, []⟩
      | .bitswap bs =>
        match bs.Stat with
        | .error err => ⟨some (err, ErrorType.ErrNormal), none, [Call.Stat]⟩
        | .ok st => ⟨none, some (Output.Stat st), [Call.Stat]⟩

/-- bitswap.go:209-233.  The result is `none` when `req.Arguments()[0]` is out of range
(a Go run-time panic). -/
def ledgerCmd.Run (env : Env) (req : Request) : Option Response :=
  match req.GetNode with
  | .error err => some ⟨some (err, ErrorType.ErrNormal), none, []⟩
  | .ok nd =>
    if !nd.OnlineMode then
      some ⟨some (env.errNotOnline, ErrorType.ErrClient), none, []⟩
    else
      match nd.Exchange with
      | .other t => some ⟨some (env.TypeErr t, ErrorType.ErrNormal), none, []⟩
      | .bitswap bs =>
        match req.Arguments with
        | [] => none
        | arg :: _ =>
          match env.IDB58Decode arg with
          | .error err => some ⟨some (err, ErrorType.ErrClient), none, [Call.IDB58Decode arg]⟩
          | .ok partner =>
            some ⟨none, some (Output.Receipt (bs.LedgerForPeer partner)),
              [Call.IDB58Decode arg, Call.LedgerForPeer partner]⟩

/-- bitswap.go:266-285. -/
def reprovideCmd.Run (env : Env) (req : Request) : Response :=
  match req.GetNode with
  | .error err => ⟨some (err, ErrorType.ErrNormal), none, []⟩
  | .ok nd =>
    if !nd.OnlineMode then
      ⟨some (env.errNotOnline, ErrorType.ErrClient), none, []⟩
    else
      match nd.Reprovider.Trigger req.Context with
      | some err => ⟨some (err, ErrorType.ErrNormal), none, [Call.Trigger req.Context]⟩
      | none => ⟨none, some Output.nil, [Call.Trigger req.Context]⟩

/-- Whether a recorded call is a `CancelWants`. -/
def Call.isCancelWants : Call → Bool
  | .CancelWants _ _ => true
  | _ => false

/-! ## Sample data -/

/-- A request for the `get` command with the given results for the `compress` and
`compression-level` options (every other option reads as absent). -/
def getRequest (compress : Bool) (level : Int) (levelFound : Bool) : Request where
  GetNode := .error ⟨"no node"⟩
  Arguments := ["/ipfs/QmExample"]
  Context := ⟨0⟩
  Option := fun name =>
    if name = "compress" then ⟨(compress, true, none), (0, false, none), ("", false, none)⟩
    else if name = "compression-level" then
      ⟨(false, false, none), (level, levelFound, none), ("", false, none)⟩
    else ⟨(false, false, none), (0, false, none), ("", false, none)⟩

/-- Sample declarations: identifiers and peer ids decode when they start with `Q`. -/
def sampleEnv : Env where
  errNotOnline := ⟨"This command must be run in online mode."⟩
  TypeErr := fun t => ⟨"expected type *bitswap.Bitswap, got " ++ t⟩
  cidDecode := fun s =>
    if s.data.head? = some 'Q' then .ok ⟨s⟩ else .error ⟨"invalid cid: " ++ s⟩
  IDB58Decode := fun s =>
    if s.data.head? = some 'Q' then .ok ⟨s⟩ else .error ⟨"invalid peer id: " ++ s⟩

/-- Sample engine. -/
def sampleBitswap : Bitswap where
  GetWantlist := [⟨"QmLocal"⟩]
  WantlistForPeer := fun p => [⟨p.id ++ "Wants"⟩]
  Stat := .error ⟨"stat unavailable"⟩
  LedgerForPeer := fun p => ⟨p.id, 3, 1000, 500⟩

/-- Sample node with identity `QmSelf`, the given mode and the given `Trigger` result. -/
def sampleNode (online : Bool) (trigger : Option Error) : IpfsNode where
  OnlineMode := online
  Exchange := .bitswap sampleBitswap
  Identity := ⟨"QmSelf"⟩
  Reprovider := ⟨fun _ => trigger⟩

/-- Sample request on a node, with the given arguments and `peer` option result. -/
def sampleRequest (nd : IpfsNode) (args : List String) (peerOpt : StringResult) : Request where
  GetNode := .ok nd
  Arguments := args
  Context := ⟨7⟩
  Option := fun name =>
    if name = "peer" then ⟨(false, false, none), (0, false, none), peerOpt⟩
    else ⟨(false, false, none), (0, false, none), ("", false, none)⟩

/-! ## Properties of `getCompressOptions` -/

/-- Error condition of `getCompressOptions` (the part of C1 that `get.go` itself decides):
an error is returned exactly when `compress` is true, a compression level was given and the
level is below 1 or above 9; the result is then
`(gzip.NoCompression, ErrInvalidCompressionLevel)` with the documented message and level 0.
Levels 1..9 are never rejected, nothing is rejected when `compress` is false, and `PreRun`
of the get command returns the very same error.  Whether `Run` is then skipped is decided by
the command dispatcher, which is not part of these files, and is not stated here. -/
theorem getCompressOptions_error_iff (req : Request) :
    ((getCompressOptions req).2 ≠ none ↔
      ((req.Option "compress").Bool.1 = true ∧
        (req.Option "compression-level").Int.2.1 = true ∧
        ((req.Option "compression-level").Int.1 < 1 ∨
          (req.Option "compression-level").Int.1 > 9))) ∧
    ((getCompressOptions req).2 ≠ none →
      getCompressOptions req = (gzip.NoCompression, some ErrInvalidCompressionLevel)) ∧
    ErrInvalidCompressionLevel.msg = "Compression level must be between 1 and 9" ∧
    gzip.NoCompression = 0 ∧
    ((1 ≤ (req.Option "compression-level").Int.1 ∧
        (req.Option "compression-level").Int.1 ≤ 9) → (getCompressOptions req).2 = none) ∧
    ((req.Option "compress").Bool.1 = false → (getCompressOptions req).2 = none) ∧
    GetCmd.PreRun req = (getCompressOptions req).2 := by
  unfold GetCmd.PreRun getCompressOptions
  cases hc : (req.Option "compress").Bool.1 <;>
    cases hf : (req.Option "compression-level").Int.2.1 <;>
    simp [ErrInvalidCompressionLevel, gzip.NoCompression]
  · by_cases h1 : (req.Option "compression-level").Int.1 < 1
    · simp [h1]
    · by_cases h9 : 9 < (req.Option "compression-level").Int.1
      · simp [h1, h9]
      · simp [h1, h9]

/-- The error condition at a concrete request: level 12 with `compress` is rejected with
the documented error, and `PreRun` returns it. -/
theorem getCompressOptions_error_iff_witness :
    getCompressOptions (getRequest true 12 true)
        = (0, some ⟨"Compression level must be between 1 and 9"⟩) ∧
      GetCmd.PreRun (getRequest true 12 true)
        = (getCompressOptions (getRequest true 12 true)).2 :=
  ⟨by decide, (getCompressOptions_error_iff (getRequest true 12 true)).2.2.2.2.2.2⟩

/-- C2: when `getCompressOptions` returns no error, the level is `gzip.NoCompression` (0)
if `compress` is false, `gzip.DefaultCompression` (-1) if `compress` is true and no level
was given, and the given level, which lies in 1..9, if `compress` is true and a level was
given; so the level is always one of -1, 0, 1, ..., 9. -/
theorem getCompressOptions_level (req : Request)
    (hok : (getCompressOptions req).2 = none) :
    ((req.Option "compress").Bool.1 = false →
      (getCompressOptions req).1 = gzip.NoCompression) ∧
    ((req.Option "compress").Bool.1 = true →
      (req.Option "compression-level").Int.2.1 = false →
      (getCompressOptions req).1 = gzip.DefaultCompression) ∧
    ((req.Option "compress").Bool.1 = true →
      (req.Option "compression-level").Int.2.1 = true →
      (getCompressOptions req).1 = (req.Option "compression-level").Int.1 ∧
        1 ≤ (req.Option "compression-level").Int.1 ∧
        (req.Option "compression-level").Int.1 ≤ 9) ∧
    gzip.NoCompression = 0 ∧ gzip.DefaultCompression = -1 ∧
    (getCompressOptions req).1 ∈ ([-1, 0, 1, 2, 3, 4, 5, 6, 7, 8, 9] : List Int) := by
  unfold getCompressOptions at hok ⊢
  cases hc : (req.Option "compress").Bool.1 <;>
    cases hf : (req.Option "compression-level").Int.2.1 <;>
    simp [hc, hf, gzip.NoCompression, gzip.DefaultCompression] at hok ⊢
  by_cases h1 : (req.Option "compression-level").Int.1 < 1
  · simp [h1] at hok
  · by_cases h9 : 9 < (req.Option "compression-level").Int.1
    · simp [h9] at hok
    · simp [h1, h9]
      omega

/-- C2 at a concrete request: `compress` with level 7 yields level 7 and no error. -/
theorem getCompressOptions_level_witness :
    (getCompressOptions (getRequest true 7 true)).2 = none ∧
      (getCompressOptions (getRequest true 7 true)).1 = 7 :=
  ⟨by decide,
    ((getCompressOptions_level (getRequest true 7 true) (by decide)).2.2.1
      (by decide) (by decide)).1⟩

/-! ## The archive file name -/

theorem HasSuffix_iff (s t : String) : strings.HasSuffix s t = true ↔ t.data <:+ s.data := by
  unfold strings.HasSuffix
  exact List.isSuffixOf_iff_suffix

theorem HasSuffix_append (s t : String) : strings.HasSuffix (s ++ t) t = true := by
  rw [HasSuffix_iff, String.data_append]
  exact List.suffix_append _ _

theorem HasSuffix_tar_not_gz (s : String) (h : strings.HasSuffix s ".tar" = true) :
    strings.HasSuffix s ".gz" = false := by
  rw [HasSuffix_iff] at h
  rw [← Bool.not_eq_true, HasSuffix_iff]
  rintro ⟨b, hb⟩
  obtain ⟨a, ha⟩ := h
  have h2 := congrArg List.getLast? (hb.trans ha.symm)
  simp at h2

theorem HasSuffix_targz_gz (s : String) (h : strings.HasSuffix s ".tar.gz" = true) :
    strings.HasSuffix s ".gz" = true := by
  rw [HasSuffix_iff] at h ⊢
  exact List.IsSuffix.trans ⟨(".tar" : String).data, rfl⟩ h

theorem HasSuffix_tar_append_gz (s : String) (h : strings.HasSuffix s ".tar" = true) :
    strings.HasSuffix (s ++ ".gz") ".tar.gz" = true := by
  rw [HasSuffix_iff] at h ⊢
  obtain ⟨a, ha⟩ := h
  refine ⟨a, ?_⟩
  rw [String.data_append, ← ha]
  simp

theorem archiveName_cases (gw : getWriter) (fpath : String) :
    gw.archiveName fpath =
      (fpath ++ (if gw.Archive = true ∧ strings.HasSuffix fpath ".tar" = false ∧
          strings.HasSuffix fpath ".tar.gz" = false then ".tar" else "")) ++
        (if gw.Compression ≠ gzip.NoCompression ∧
          strings.HasSuffix (fpath ++ (if gw.Archive = true ∧
            strings.HasSuffix fpath ".tar" = false ∧
            strings.HasSuffix fpath ".tar.gz" = false then ".tar" else "")) ".gz" = false
          then ".gz" else "") := by
  unfold getWriter.archiveName
  cases gw.Archive <;> cases strings.HasSuffix fpath ".tar" <;>
    cases strings.HasSuffix fpath ".tar.gz" <;> by_cases hc : gw.Compression = gzip.NoCompression <;>
    simp [hc] <;> split <;> simp_all


theorem archiveName_gz (gw : getWriter) (fpath : String)
    (hc : gw.Compression ≠ gzip.NoCompression) :
    strings.HasSuffix (gw.archiveName fpath) ".gz" = true := by
  have step : ∀ x : String, strings.HasSuffix
      (if (!strings.HasSuffix x ".gz") = true then x ++ ".gz" else x) ".gz" = true := by
    intro x
    cases h : strings.HasSuffix x ".gz" <;> simp [h, HasSuffix_append]
  unfold getWriter.archiveName
  simp only [hc, ne_eq, not_false_eq_true, if_true]
  exact step _

theorem archiveName_tar (gw : getWriter) (fpath : String) (ha : gw.Archive = true) :
    (gw.Compression = gzip.NoCompression →
      strings.HasSuffix (gw.archiveName fpath) ".tar" = true ∨
      strings.HasSuffix (gw.archiveName fpath) ".tar.gz" = true) ∧
    (gw.Compression ≠ gzip.NoCompression →
      strings.HasSuffix (gw.archiveName fpath) ".tar.gz" = true) := by
  have key : ∀ s : String, strings.HasSuffix (s ++ ".tar") ".gz" = false := fun s =>
    HasSuffix_tar_not_gz _ (HasSuffix_append s ".tar")
  have key2 : ∀ s : String, strings.HasSuffix (s ++ ".tar" ++ ".gz") ".tar.gz" = true :=
    fun s => HasSuffix_tar_append_gz _ (HasSuffix_append s ".tar")
  unfold getWriter.archiveName
  cases ht : strings.HasSuffix fpath ".tar" <;>
    cases htg : strings.HasSuffix fpath ".tar.gz" <;>
    by_cases hc : gw.Compression = gzip.NoCompression <;>
    simp [ha, hc, ht, htg, key, key2, HasSuffix_append, HasSuffix_targz_gz,
      HasSuffix_tar_not_gz, HasSuffix_tar_append_gz]

theorem archiveName_fixed (gw : getWriter) (n : String)
    (h1 : gw.Archive = true →
      strings.HasSuffix n ".tar" = true ∨ strings.HasSuffix n ".tar.gz" = true)
    (h2 : gw.Compression ≠ gzip.NoCompression → strings.HasSuffix n ".gz" = true) :
    gw.archiveName n = n := by
  unfold getWriter.archiveName
  cases ha : gw.Archive <;> by_cases hc : gw.Compression = gzip.NoCompression <;>
    simp [ha, hc] at h1 h2 ⊢
  · simp [h2]
  · rcases h1 with h | h <;> simp [h]
  · rcases h1 with h | h <;> simp [h, h2]


/-- C8: `writeArchive` creates exactly one file, named `archiveName gw fpath`.  That name
is `fpath` followed by `.tar` iff `Archive` is set and `fpath` ends in neither `.tar` nor
`.tar.gz`, followed by `.gz` iff `Compression` is not `gzip.NoCompression` and the name so
far does not end in `.gz`.  So `fpath` is a prefix of it, it ends in `.gz` when compression
is on, in `.tar` or `.tar.gz` when `Archive` is set, in `.tar.gz` when both hold, and
adjusting an adjusted name changes nothing.  `Write` runs `writeArchive` when `Archive` is
set or `Compression` is not `gzip.NoCompression`, and `writeExtracted` otherwise (the two
never coincide). -/
theorem writeArchive_file_name (gw : getWriter) (osCreate : String → Option Error)
    (ioCopy extract : Option Error) (fpath : String) :
    ((gw.writeArchive osCreate ioCopy fpath).1.head? =
        some (FsEvent.Create (gw.archiveName fpath)) ∧
      ∀ n, FsEvent.Create n ∈ (gw.writeArchive osCreate ioCopy fpath).1 →
        n = gw.archiveName fpath) ∧
    gw.archiveName fpath =
      (fpath ++ (if gw.Archive = true ∧ strings.HasSuffix fpath ".tar" = false ∧
          strings.HasSuffix fpath ".tar.gz" = false then ".tar" else "")) ++
        (if gw.Compression ≠ gzip.NoCompression ∧
          strings.HasSuffix (fpath ++ (if gw.Archive = true ∧
            strings.HasSuffix fpath ".tar" = false ∧
            strings.HasSuffix fpath ".tar.gz" = false then ".tar" else "")) ".gz" = false
          then ".gz" else "") ∧
    fpath.data <+: (gw.archiveName fpath).data ∧
    (gw.Compression ≠ gzip.NoCompression →
      strings.HasSuffix (gw.archiveName fpath) ".gz" = true) ∧
    (gw.Archive = true →
      strings.HasSuffix (gw.archiveName fpath) ".tar" = true ∨
      strings.HasSuffix (gw.archiveName fpath) ".tar.gz" = true) ∧
    (gw.Archive = true → gw.Compression ≠ gzip.NoCompression →
      strings.HasSuffix (gw.archiveName fpath) ".tar.gz" = true) ∧
    gw.archiveName (gw.archiveName fpath) = gw.archiveName fpath ∧
    ((gw.Archive = true ∨ gw.Compression ≠ gzip.NoCompression) →
      gw.Write osCreate ioCopy extract fpath = gw.writeArchive osCreate ioCopy fpath) ∧
    (¬ (gw.Archive = true ∨ gw.Compression ≠ gzip.NoCompression) →
      gw.Write osCreate ioCopy extract fpath = gw.writeExtracted extract fpath) ∧
    gw.writeArchive osCreate ioCopy fpath ≠ gw.writeExtracted extract fpath := by
  have htar : gw.Archive = true →
      strings.HasSuffix (gw.archiveName fpath) ".tar" = true ∨
      strings.HasSuffix (gw.archiveName fpath) ".tar.gz" = true := by
    intro ha
    by_cases hc : gw.Compression = gzip.NoCompression
    · exact (archiveName_tar gw fpath ha).1 hc
    · exact Or.inr ((archiveName_tar gw fpath ha).2 hc)
  refine ⟨⟨?_, ?_⟩, archiveName_cases gw fpath, ?_, archiveName_gz gw fpath, htar,
    fun ha hc => (archiveName_tar gw fpath ha).2 hc,
    archiveName_fixed gw _ htar (archiveName_gz gw fpath), ?_, ?_, ?_⟩
  · cases h : osCreate (gw.archiveName fpath) <;> simp [getWriter.writeArchive, h]
  · intro n
    cases h : osCreate (gw.archiveName fpath) <;> simp [getWriter.writeArchive, h]
  · rw [archiveName_cases, String.data_append, String.data_append, List.append_assoc]
    exact ⟨_, rfl⟩
  · intro h
    unfold getWriter.Write
    rcases h with h | h <;> simp [h]
  · intro h
    unfold getWriter.Write
    simp only [not_or, not_not, Bool.not_eq_true] at h
    simp [h.1, h.2]
  · cases h : osCreate (gw.archiveName fpath) <;>
      simp [getWriter.writeArchive, getWriter.writeExtracted, h]

/-- C8 at a concrete input: with `Archive` and compression level 5 the path `a.gz` is
created as `a.gz.tar.gz`, and adjusting that name again leaves it unchanged. -/
theorem writeArchive_file_name_witness :
    getWriter.archiveName ⟨true, 5, 0⟩ "a.gz" = "a.gz.tar.gz" ∧
      getWriter.archiveName ⟨true, 5, 0⟩ (getWriter.archiveName ⟨true, 5, 0⟩ "a.gz")
        = getWriter.archiveName ⟨true, 5, 0⟩ "a.gz" :=
  ⟨by decide,
    (writeArchive_file_name ⟨true, 5, 0⟩ (fun _ => none) none none "a.gz").2.2.2.2.2.2.1⟩

/-! ## The bitswap commands -/

/-- The decoding loop either decodes every argument, appending the identifiers in
argument order, or stops at the first argument that fails to decode. -/
theorem decodeKeys_spec (env : Env) (args : List String) :
    ∀ (ks : List Cid) (tr : List Call),
    (∃ cs : List Cid, args.map env.cidDecode = cs.map Except.ok ∧
      unwantCmd.decodeKeys env args ks tr =
        (.ok (ks ++ cs), tr ++ args.map Call.cidDecode)) ∨
    (∃ pre bad post e, args = pre ++ bad :: post ∧
      (∀ a ∈ pre, ∃ c, env.cidDecode a = .ok c) ∧
      env.cidDecode bad = .error e ∧
      unwantCmd.decodeKeys env args ks tr =
        (.error e, tr ++ (pre ++ [bad]).map Call.cidDecode)) := by
  induction args with
  | nil =>
    intro ks tr
    exact Or.inl ⟨[], rfl, by simp [unwantCmd.decodeKeys]⟩
  | cons arg rest ih =>
    intro ks tr
    cases hd : env.cidDecode arg with
    | error e =>
      refine Or.inr ⟨[], arg, rest, e, rfl, by simp, hd, ?_⟩
      simp [unwantCmd.decodeKeys, hd]
    | ok c =>
      rcases ih (ks ++ [c]) (tr ++ [Call.cidDecode arg]) with ⟨cs, hcs, hrun⟩ | ⟨pre, bad, post, e, hsplit, hpre, hbad, hrun⟩
      · refine Or.inl ⟨c :: cs, by simp [hd, hcs], ?_⟩
        simp [unwantCmd.decodeKeys, hd, hrun]
      · refine Or.inr ⟨arg :: pre, bad, post, e, by simp [hsplit], ?_, hbad, ?_⟩
        · intro a ha
          rcases List.mem_cons.mp ha with rfl | h
          · exact ⟨c, hd⟩
          · exact hpre a h
        · simp [unwantCmd.decodeKeys, hd, hrun]

/-- C3: in `unwant` on an online node whose exchange is the bitswap engine, if some key
argument fails `cid.Decode`, the command reports the decode error of the first failing
argument (every argument before it decodes) with kind `ErrNormal`, sets no output, stops
after that decode, and never calls `CancelWants`. -/
theorem unwant_decode_error (env : Env) (req : Request) (nd : IpfsNode) (bs : Bitswap)
    (hnode : req.GetNode = .ok nd) (honline : nd.OnlineMode = true)
    (hex : nd.Exchange = .bitswap bs)
    (hbad : ∃ arg ∈ req.Arguments, ∃ e, env.cidDecode arg = .error e) :
    ∃ pre bad post e, req.Arguments = pre ++ bad :: post ∧
      (∀ a ∈ pre, ∃ c, env.cidDecode a = .ok c) ∧
      env.cidDecode bad = .error e ∧
      (unwantCmd.Run env req).Error = some (e, ErrorType.ErrNormal) ∧
      (unwantCmd.Run env req).Output = none ∧
      (unwantCmd.Run env req).trace = (pre ++ [bad]).map Call.cidDecode ∧
      ∀ ks ses, Call.CancelWants ks ses ∉ (unwantCmd.Run env req).trace := by
  rcases decodeKeys_spec env req.Arguments [] [] with ⟨cs, hcs, _⟩ | ⟨pre, bad, post, e, hsplit, hpre, hb, hrun⟩
  · exfalso
    obtain ⟨arg, harg, e, he⟩ := hbad
    have hmem : env.cidDecode arg ∈ cs.map Except.ok := by
      rw [← hcs]
      exact List.mem_map_of_mem _ harg
    obtain ⟨c, _, hc⟩ := List.mem_map.mp hmem
    rw [he] at hc
    cases hc
  · have hr : unwantCmd.Run env req =
        ⟨some (e, ErrorType.ErrNormal), none, (pre ++ [bad]).map Call.cidDecode⟩ := by
      simp [unwantCmd.Run, hnode, honline, hex, hrun]
    refine ⟨pre, bad, post, e, hsplit, hpre, hb, ?_, ?_, ?_, ?_⟩ <;> rw [hr]
    intro ks ses hin
    simp at hin

/-- C3 at a concrete request: the second of four keys is malformed; its error is the one
reported, the valid first key is not cancelled and the later keys are never decoded. -/
theorem unwant_decode_error_witness :
    unwantCmd.Run sampleEnv
        (sampleRequest (sampleNode true none) ["QmA", "zzz", "QmB", "yyy"] ("", false, none))
      = ⟨some (⟨"invalid cid: zzz"⟩, ErrorType.ErrNormal), none,
          [Call.cidDecode "QmA", Call.cidDecode "zzz"]⟩ ∧
    ∃ pre bad post e, ["QmA", "zzz", "QmB", "yyy"] = pre ++ bad :: post ∧
      (∀ a ∈ pre, ∃ c, sampleEnv.cidDecode a = .ok c) ∧
      sampleEnv.cidDecode bad = .error e ∧
      (unwantCmd.Run sampleEnv (sampleRequest (sampleNode true none)
        ["QmA", "zzz", "QmB", "yyy"] ("", false, none))).Error
          = some (e, ErrorType.ErrNormal) ∧
      (unwantCmd.Run sampleEnv (sampleRequest (sampleNode true none)
        ["QmA", "zzz", "QmB", "yyy"] ("", false, none))).Output = none ∧
      (unwantCmd.Run sampleEnv (sampleRequest (sampleNode true none)
        ["QmA", "zzz", "QmB", "yyy"] ("", false, none))).trace
          = (pre ++ [bad]).map Call.cidDecode ∧
      ∀ ks ses, Call.CancelWants ks ses ∉
        (unwantCmd.Run sampleEnv (sampleRequest (sampleNode true none)
          ["QmA", "zzz", "QmB", "yyy"] ("", false, none))).trace :=
  ⟨by decide,
    unwant_decode_error sampleEnv
      (sampleRequest (sampleNode true none) ["QmA", "zzz", "QmB", "yyy"] ("", false, none))
      (sampleNode true none) sampleBitswap rfl rfl rfl
      ⟨"zzz", by decide, ⟨"invalid cid: zzz"⟩, rfl⟩⟩

/-- C4: in `unwant` on an online node whose exchange is the bitswap engine, when every key
argument decodes, `CancelWants` is called exactly once, with session id 0 and the list of
decoded identifiers, which has the length and the order of the arguments (its i-th element
is the decoding of the i-th argument, duplicates kept); the command reports no error. -/
theorem unwant_cancels (env : Env) (req : Request) (nd : IpfsNode) (bs : Bitswap)
    (hnode : req.GetNode = .ok nd) (honline : nd.OnlineMode = true)
    (hex : nd.Exchange = .bitswap bs)
    (hall : ∀ arg ∈ req.Arguments, ∃ c, env.cidDecode arg = .ok c) :
    ∃ ks : List Cid,
      req.Arguments.map env.cidDecode = ks.map Except.ok ∧
      ks.length = req.Arguments.length ∧
      (∀ (i : Nat) (h1 : i < req.Arguments.length) (h2 : i < ks.length),
        env.cidDecode (req.Arguments.get ⟨i, h1⟩) = .ok (ks.get ⟨i, h2⟩)) ∧
      (unwantCmd.Run env req).Error = none ∧
      (unwantCmd.Run env req).trace =
        req.Arguments.map Call.cidDecode ++ [Call.CancelWants ks 0] ∧
      (unwantCmd.Run env req).trace.filter Call.isCancelWants = [Call.CancelWants ks 0] := by
  rcases decodeKeys_spec env req.Arguments [] [] with ⟨cs, hcs, hrun⟩ | ⟨pre, bad, post, e, hsplit, _, hb, _⟩
  · have hr : unwantCmd.Run env req =
        ⟨none, none, req.Arguments.map Call.cidDecode ++ [Call.CancelWants cs 0]⟩ := by
      simp [unwantCmd.Run, hnode, honline, hex, hrun]
    have hlen : cs.length = req.Arguments.length := by
      have := congrArg List.length hcs
      simpa using this.symm
    refine ⟨cs, hcs, hlen, ?_, ?_, ?_, ?_⟩
    · intro i h1 h2
      have h3 : (req.Arguments.map env.cidDecode)[i]? = (cs.map Except.ok)[i]? := by rw [hcs]
      simpa [List.getElem?_map, List.getElem?_eq_getElem h1, List.getElem?_eq_getElem h2] using h3
    · rw [hr]
    · rw [hr]
    · rw [hr]
      simp [List.filter_append, List.filter_map, Call.isCancelWants]
  · exfalso
    obtain ⟨c, hc⟩ := hall bad (by simp [hsplit])
    rw [hb] at hc
    cases hc

/-- C4 at a concrete request with a duplicated key: one `CancelWants` call, session 0,
identifiers in argument order with the duplicate kept. -/
theorem unwant_cancels_witness :
    unwantCmd.Run sampleEnv
        (sampleRequest (sampleNode true none) ["QmA", "QmB", "QmA"] ("", false, none))
      = ⟨none, none,
          [Call.cidDecode "QmA", Call.cidDecode "QmB", Call.cidDecode "QmA",
            Call.CancelWants [⟨"QmA"⟩, ⟨"QmB"⟩, ⟨"QmA"⟩] 0]⟩ ∧
    ∃ ks : List Cid,
      ["QmA", "QmB", "QmA"].map sampleEnv.cidDecode = ks.map Except.ok ∧
      (unwantCmd.Run sampleEnv
        (sampleRequest (sampleNode true none) ["QmA", "QmB", "QmA"] ("", false, none))).trace
          = ["QmA", "QmB", "QmA"].map Call.cidDecode ++ [Call.CancelWants ks 0] :=
  ⟨by decide,
    (unwant_cancels sampleEnv
      (sampleRequest (sampleNode true none) ["QmA", "QmB", "QmA"] ("", false, none))
      (sampleNode true none) sampleBitswap rfl rfl rfl
      (by
        intro arg harg
        simp only [sampleRequest, List.mem_cons, List.mem_singleton, List.not_mem_nil,
          or_false] at harg
        rcases harg with rfl | rfl | rfl <;> exact ⟨_, rfl⟩)).imp
      fun _ h => ⟨h.1, h.2.2.2.2.1⟩⟩

/-- C5: when the node is obtained but is not online, each of `unwant`, `wantlist`, `stat`,
`ledger` and `reprovide` ends with the error `errNotOnline` of kind `ErrClient`, sets no
output and makes no call at all: no `CancelWants`, `GetWantlist`, `WantlistForPeer`,
`Stat`, `LedgerForPeer` or `Trigger`, and no decoding of a key or peer argument, whatever
the arguments and options are. -/
theorem offline_errNotOnline (env : Env) (req : Request) (nd : IpfsNode)
    (hnode : req.GetNode = .ok nd) (hoff : nd.OnlineMode = false) :
    unwantCmd.Run env req = ⟨some (env.errNotOnline, ErrorType.ErrClient), none, []⟩ ∧
    showWantlistCmd.Run env req = ⟨some (env.errNotOnline, ErrorType.ErrClient), none, []⟩ ∧
    bitswapStatCmd.Run env req = ⟨some (env.errNotOnline, ErrorType.ErrClient), none, []⟩ ∧
    ledgerCmd.Run env req = some ⟨some (env.errNotOnline, ErrorType.ErrClient), none, []⟩ ∧
    reprovideCmd.Run env req = ⟨some (env.errNotOnline, ErrorType.ErrClient), none, []⟩ := by
  simp [unwantCmd.Run, showWantlistCmd.Run, bitswapStatCmd.Run, ledgerCmd.Run,
    reprovideCmd.Run, hnode, hoff]

/-- C5 at a concrete offline request whose key argument and peer option are both
malformed: all five commands answer `errNotOnline`, not a decode error. -/
theorem offline_errNotOnline_witness :
    sampleEnv.cidDecode "zzz" = .error ⟨"invalid cid: zzz"⟩ ∧
    sampleEnv.IDB58Decode "zzz" = .error ⟨"invalid peer id: zzz"⟩ ∧
    unwantCmd.Run sampleEnv
        (sampleRequest (sampleNode false none) ["zzz"] ("zzz", true, none))
      = ⟨some (sampleEnv.errNotOnline, ErrorType.ErrClient), none, []⟩ ∧
    showWantlistCmd.Run sampleEnv
        (sampleRequest (sampleNode false none) ["zzz"] ("zzz", true, none))
      = ⟨some (sampleEnv.errNotOnline, ErrorType.ErrClient), none, []⟩ ∧
    bitswapStatCmd.Run sampleEnv
        (sampleRequest (sampleNode false none) ["zzz"] ("zzz", true, none))
      = ⟨some (sampleEnv.errNotOnline, ErrorType.ErrClient), none, []⟩ ∧
    ledgerCmd.Run sampleEnv
        (sampleRequest (sampleNode false none) ["zzz"] ("zzz", true, none))
      = some ⟨some (sampleEnv.errNotOnline, ErrorType.ErrClient), none, []⟩ ∧
    reprovideCmd.Run sampleEnv
        (sampleRequest (sampleNode false none) ["zzz"] ("zzz", true, none))
      = ⟨some (sampleEnv.errNotOnline, ErrorType.ErrClient), none, []⟩ :=
  ⟨rfl, rfl,
    offline_errNotOnline sampleEnv
      (sampleRequest (sampleNode false none) ["zzz"] ("zzz", true, none))
      (sampleNode false none) rfl rfl⟩

/-- C6: in `reprovide` on an online node, `Trigger` is called exactly once, with the
context of the request, and nothing else is called.  If it returns an error, the command
reports that same error with kind `ErrNormal` and sets no output; if it returns nil, the
command reports no error and sets a nil output. -/
theorem reprovide_trigger (env : Env) (req : Request) (nd : IpfsNode)
    (hnode : req.GetNode = .ok nd) (honline : nd.OnlineMode = true) :
    (reprovideCmd.Run env req).trace = [Call.Trigger req.Context] ∧
    (∀ err, nd.Reprovider.Trigger req.Context = some err →
      (reprovideCmd.Run env req).Error = some (err, ErrorType.ErrNormal) ∧
      (reprovideCmd.Run env req).Output = none) ∧
    (nd.Reprovider.Trigger req.Context = none →
      (reprovideCmd.Run env req).Error = none ∧
      (reprovideCmd.Run env req).Output = some Output.nil) := by
  cases h : nd.Reprovider.Trigger req.Context <;>
    simp [reprovideCmd.Run, hnode, honline, h]

/-- C6 at a concrete request whose reprovider fails: one `Trigger` call, the failure
reported unchanged, no output. -/
theorem reprovide_trigger_witness :
    reprovideCmd.Run sampleEnv
        (sampleRequest (sampleNode true (some ⟨"reprovider is already running"⟩)) []
          ("", false, none))
      = ⟨some (⟨"reprovider is already running"⟩, ErrorType.ErrNormal), none,
          [Call.Trigger ⟨7⟩]⟩ ∧
    (reprovideCmd.Run sampleEnv
        (sampleRequest (sampleNode true (some ⟨"reprovider is already running"⟩)) []
          ("", false, none))).trace = [Call.Trigger ⟨7⟩] :=
  ⟨by decide,
    (reprovide_trigger sampleEnv
      (sampleRequest (sampleNode true (some ⟨"reprovider is already running"⟩)) []
        ("", false, none))
      (sampleNode true (some ⟨"reprovider is already running"⟩)) rfl rfl).1⟩

/-- C7: in `wantlist` on an online node whose exchange is the bitswap engine, with the
`peer` option read as a string (its `String()` accessor returns `(pstr, found, nil)`, as
it does for a declared string option): the output is the local wantlist (`GetWantlist`) when the
option is absent or decodes to the identity of the node; `WantlistForPeer pid` is called,
and is the output, exactly when the option is present and decodes to a `pid` other than
that identity; and when the option is present but does not decode, the decode error is
reported, no output is set and no wantlist is read. -/
theorem wantlist_selection (env : Env) (req : Request) (nd : IpfsNode) (bs : Bitswap)
    (pstr : String) (found : Bool)
    (hnode : req.GetNode = .ok nd) (honline : nd.OnlineMode = true)
    (hex : nd.Exchange = .bitswap bs)
    (hopt : (req.Option "peer").String = (pstr, found, none)) :
    ((found = false ∨ (found = true ∧ env.IDB58Decode pstr = .ok nd.Identity)) →
      (showWantlistCmd.Run env req).Output = some (Output.KeyList bs.GetWantlist) ∧
      (showWantlistCmd.Run env req).Error = none ∧
      Call.GetWantlist ∈ (showWantlistCmd.Run env req).trace ∧
      ∀ p, Call.WantlistForPeer p ∉ (showWantlistCmd.Run env req).trace) ∧
    (∀ pid, (found = true ∧ env.IDB58Decode pstr = .ok pid ∧ pid ≠ nd.Identity) →
      (showWantlistCmd.Run env req).Output = some (Output.KeyList (bs.WantlistForPeer pid)) ∧
      (showWantlistCmd.Run env req).Error = none ∧
      Call.GetWantlist ∉ (showWantlistCmd.Run env req).trace) ∧
    (∀ pid, Call.WantlistForPeer pid ∈ (showWantlistCmd.Run env req).trace ↔
      (found = true ∧ env.IDB58Decode pstr = .ok pid ∧ pid ≠ nd.Identity)) ∧
    (∀ err, (found = true ∧ env.IDB58Decode pstr = .error err) →
      (showWantlistCmd.Run env req).Error = some (err, ErrorType.ErrNormal) ∧
      (showWantlistCmd.Run env req).Output = none ∧
      Call.GetWantlist ∉ (showWantlistCmd.Run env req).trace ∧
      ∀ p, Call.WantlistForPeer p ∉ (showWantlistCmd.Run env req).trace) := by
  cases found with
  | false => simp [showWantlistCmd.Run, hnode, honline, hex, hopt]
  | true =>
    cases hd : env.IDB58Decode pstr with
    | error e => simp [showWantlistCmd.Run, hnode, honline, hex, hopt, hd]
    | ok pid =>
      by_cases hid : pid = nd.Identity
      · subst hid
        simp [showWantlistCmd.Run, hnode, honline, hex, hopt, hd]
      · simp [showWantlistCmd.Run, hnode, honline, hex, hopt, hd, hid]
        intro p
        constructor
        · rintro rfl
          exact ⟨rfl, hid⟩
        · rintro ⟨h, _⟩
          exact h.symm

/-- C7 at a concrete request naming another peer: `WantlistForPeer` of that peer is the
output and the local wantlist is not read. -/
theorem wantlist_selection_witness :
    showWantlistCmd.Run sampleEnv
        (sampleRequest (sampleNode true none) [] ("QmOther", true, none))
      = ⟨none, some (Output.KeyList [⟨"QmOtherWants"⟩]),
          [Call.IDB58Decode "QmOther", Call.WantlistForPeer ⟨"QmOther"⟩]⟩ ∧
    ((showWantlistCmd.Run sampleEnv
        (sampleRequest (sampleNode true none) [] ("QmOther", true, none))).Output
      = some (Output.KeyList (sampleBitswap.WantlistForPeer ⟨"QmOther"⟩)) ∧
    (showWantlistCmd.Run sampleEnv
        (sampleRequest (sampleNode true none) [] ("QmOther", true, none))).Error = none ∧
    Call.GetWantlist ∉ (showWantlistCmd.Run sampleEnv
        (sampleRequest (sampleNode true none) [] ("QmOther", true, none))).trace) :=
  ⟨by decide,
    (wantlist_selection sampleEnv
      (sampleRequest (sampleNode true none) [] ("QmOther", true, none))
      (sampleNode true none) sampleBitswap "QmOther" true rfl rfl rfl rfl).2.1
      ⟨"QmOther"⟩ ⟨rfl, rfl, by decide⟩⟩

end GoIpfs
